import Mathlib

/-!
Verification of the music-upload backend (src/main.py, src/schemas.py).

The embedding models the FastAPI handlers as pure state-transition
functions.  Bytes are lists of naturals, JSON values are a small
inductive, and the MongoDB-backed metadata store is a list of documents
together with fault-injection flags (the module database.py that hosts
the real store is not among the provided sources, so its insert
operation is modelled from the specification).  The nondeterministic
inputs of the handlers (the random uuid4 hex token and the current
timestamp) are passed in as explicit parameters.
-/

/-- JSON values as returned by the endpoints (only the shapes the
backend actually produces: strings, numbers and null). -/
inductive Json where
  | str : String → Json
  | num : Nat → Json
  | null : Json
deriving DecidableEq, Repr

/-- Translation of a Python Optional string into a JSON value. -/
def optJson : Option String → Json
  | none => Json.null
  | some s => Json.str s

/-- Model of fastapi.HTTPException: a status code and a detail message.
Detail messages that the source builds with an interpolated exception
text are modelled by their fixed prefix. -/
structure HErr where
  status : Nat
  detail : String
deriving DecidableEq, Repr

/-- Side effects performed by the upload handler, recorded in order. -/
inductive Effect where
  | readFile : Effect
  | writeBlob : String → Effect
  | removeBlob : String → Effect
  | insertDoc : Effect
deriving DecidableEq, Repr

/-- Track, following src/schemas.py: the pydantic model validated before
insertion.  HttpUrl is abstracted to a string. -/
structure Track where
  title : String
  artist : Option String
  album : Option String
  genre : Option String
  cover_url : Option String
  filename : String
  original_filename : String
  content_type : String
  file_size : Nat
deriving DecidableEq, Repr

/-- A stored MongoDB document of the track collection: the Track fields
plus the store-assigned identifier and the creation stamp used by the
newest-first listing (modelled as a logical counter). -/
structure Doc where
  id : String
  title : String
  artist : Option String
  album : Option String
  genre : Option String
  cover_url : Option String
  filename : String
  original_filename : String
  content_type : String
  file_size : Nat
  created_at : Nat
deriving DecidableEq, Repr

/-- The metadata store: availability flag (db is None in the source when
false), a fault-injection flag for insert failures, the stored documents
in insertion order, and the counters feeding fresh identifiers and
creation stamps. -/
structure MetaStore where
  available : Bool
  failInsert : Bool
  docs : List Doc
  nextId : Nat
  nextTime : Nat
deriving DecidableEq, Repr

/-- Whole-system state: the blob store (filesystem upload directory,
keyed by storage name with distinct keys), the metadata store, the
optional PUBLIC_BACKEND_URL configuration, and fault-injection flags for
the filesystem write and the best-effort delete. -/
structure SysState where
  blobs : List (String × List Nat)
  store : MetaStore
  publicBase : Option String
  writeFail : Bool
  removeFail : Bool
deriving DecidableEq, Repr

/-- Look a blob up by storage name. -/
def lookupBlob : List (String × List Nat) → String → Option (List Nat)
  | [], _ => none
  | (m, c) :: rest, n => if m = n then some c else lookupBlob rest n

/-- Write a blob: overwrite the entry with that name, or add one. -/
def writeBlob : List (String × List Nat) → String → List Nat → List (String × List Nat)
  | [], n, c => [(n, c)]
  | (m, d) :: rest, n, c => if m = n then (n, c) :: rest else (m, d) :: writeBlob rest n c

/-- Delete a blob by name (os.remove). -/
def removeBlob (bs : List (String × List Nat)) (n : String) : List (String × List Nat) :=
  bs.filter (fun p => p.1 != n)

/-- Hexadecimal digit characters. -/
def isHexChar (c : Char) : Bool :=
  (('0' ≤ c) && (c ≤ '9')) || (('a' ≤ c) && (c ≤ 'f')) || (('A' ≤ c) && (c ≤ 'F'))

/-- Hexadecimal digit of a value below sixteen. -/
def hexDigit : Nat → Char
  | 0 => '0' | 1 => '1' | 2 => '2' | 3 => '3' | 4 => '4' | 5 => '5' | 6 => '6'
  | 7 => '7' | 8 => '8' | 9 => '9' | 10 => 'a' | 11 => 'b' | 12 => 'c' | 13 => 'd'
  | 14 => 'e' | _ => 'f'

/-- A number rendered as 24 lowercase hex digits, the textual form of a
BSON ObjectId. -/
def natToHex24 (n : Nat) : String :=
  String.mk ((List.range 24).map (fun i => hexDigit (n / 16 ^ (23 - i) % 16)))

/-- Lowercasing restricted to the uppercase hex letters, which is all
that ObjectId parsing normalizes. -/
def lowerChar (c : Char) : Char :=
  if c = 'A' then 'a' else if c = 'B' then 'b' else if c = 'C' then 'c'
  else if c = 'D' then 'd' else if c = 'E' then 'e' else if c = 'F' then 'f' else c

/-- Normalized form of an ObjectId string (hex parsing is
case-insensitive, the stored textual form is lowercase). -/
def normalizeOid (s : String) : String :=
  String.mk (s.data.map lowerChar)

/-- Modelled from the spec: validity of an identifier for the store's ID
scheme.  The source delegates to bson.ObjectId, which is not among the
provided sources; per the spec a well-formed identifier is a token of
the right length for the scheme, here 24 hex digits as in BSON. -/
def isValidOid (s : String) : Bool :=
  (s.data.length == 24) && s.data.all (fun c => isHexChar c)

/-- Suffix of the basename after the last slash (os.path semantics with
sep a forward slash). -/
def afterLastSlash : List Char → List Char
  | [] => []
  | c :: rest =>
    if '/' ∈ rest then afterLastSlash rest
    else if c = '/' then rest
    else c :: rest

/-- Suffix starting at the last dot; empty when there is no dot. -/
def fromLastDot : List Char → List Char
  | [] => []
  | c :: rest =>
    if '.' ∈ rest then fromLastDot rest
    else if c = '.' then c :: rest
    else []

/-- Extension of a basename as os.path.splitext computes it: the suffix
from the last dot, provided some earlier character of the basename is
not a dot (leading dots are part of the root, so dotfiles have no
extension). -/
def extOfBasename (b : List Char) : List Char :=
  if '.' ∈ b.dropWhile (fun c => c == '.') then fromLastDot b else []

/-- Model of os.path.splitext applied to the original filename, keeping
only the extension component, as in line 98 of src/main.py. -/
def splitextExt (p : String) : String :=
  String.mk (extOfBasename (afterLastSlash p.data))

/-- Extension rule as the spec words it: the substring from the last dot
onward (including the dot), empty if the name contains no dot.  Used to
compare the spec against the source behaviour. -/
def specExt (p : String) : String :=
  String.mk (fromLastDot p.data)

/-- Storage name generation, line 99 of src/main.py: the uuid4 hex token
concatenated with the splitext extension of the original filename. -/
def uniqueName (token : String) (orig : String) : String :=
  token ++ splitextExt orig

/-- Content-type gate of the upload handler: present and starting with
the audio prefix. -/
def contentTypeOk : Option String → Bool
  | none => false
  | some s =>
    match s.data with
    | 'a' :: 'u' :: 'd' :: 'i' :: 'o' :: '/' :: _ => true
    | _ => false

/-- Declared content type as a plain string (only used on the success
path, where it is present). -/
def contentTypeStr : Option String → String
  | none => ""
  | some s => s

/-- Modelled from the spec: create_document lives in database.py, which
is not among the provided sources.  Per the spec the insert assigns a
fresh unique identifier and the stored document carries the creation
stamp that the newest-first listing sorts on; stamps are modelled by a
strictly increasing counter. -/
def create_document (ms : MetaStore) (t : Track) : MetaStore × String :=
  let id := natToHex24 ms.nextId
  let d : Doc :=
    { id := id, title := t.title, artist := t.artist, album := t.album,
      genre := t.genre, cover_url := t.cover_url, filename := t.filename,
      original_filename := t.original_filename, content_type := t.content_type,
      file_size := t.file_size, created_at := ms.nextTime }
  ({ ms with docs := ms.docs ++ [d], nextId := ms.nextId + 1, nextTime := ms.nextTime + 1 }, id)

/-- Whether the create_document call of the upload handler raises: fault
injection, or the db handle being None. -/
def insertFails (ms : MetaStore) : Bool :=
  ms.failInsert || !ms.available

/-- build_media_url of src/main.py: a configured non-empty public base
gives an absolute URL, otherwise the root-relative path is returned. -/
def build_media_url (base : Option String) (filename : String) : String :=
  match base with
  | some b => if b = "" then "/media/" ++ filename else b ++ "/media/" ++ filename
  | none => "/media/" ++ filename

/-- Multipart form of the upload request. -/
structure UploadReq where
  fileContent : List Nat
  fileFilename : String
  fileContentType : Option String
  title : String
  artist : Option String
  album : Option String
  genre : Option String
  cover_url : Option String
deriving DecidableEq, Repr

/-- Response body of a successful upload, field by field as the dict
literal of lines 133-146 of src/main.py. -/
def uploadResponse (inserted_id : String) (t : Track) (media_url : String) (now : String) :
    List (String × Json) :=
  [("_id", Json.str inserted_id), ("title", Json.str t.title),
   ("artist", optJson t.artist), ("album", optJson t.album),
   ("genre", optJson t.genre), ("cover_url", optJson t.cover_url),
   ("filename", Json.str t.filename),
   ("original_filename", Json.str t.original_filename),
   ("content_type", Json.str t.content_type),
   ("file_size", Json.num t.file_size),
   ("media_url", Json.str media_url), ("created_at", Json.str now)]

/-- Field access in a JSON object. -/
def getField (resp : List (String × Json)) (k : String) : Option Json :=
  (resp.find? (fun p => p.1 == k)).map Prod.snd

/-- The Track value constructed by the upload handler, lines 113-123 of
src/main.py: supplied fields, the generated storage name, the original
filename, the declared content type, and the actual byte count. -/
def mkTrack (req : UploadReq) (token : String) : Track :=
  { title := req.title, artist := req.artist, album := req.album, genre := req.genre,
    cover_url := req.cover_url, filename := uniqueName token req.fileFilename,
    original_filename := req.fileFilename, content_type := contentTypeStr req.fileContentType,
    file_size := req.fileContent.length }

/-- upload_track of src/main.py as a state transition.  token is the
uuid4 hex value and now the timestamp taken at response time.  Returns
the new state, the ordered effect trace, and either an HTTP error or the
JSON response body. -/
def upload_track (st : SysState) (req : UploadReq) (token : String) (now : String) :
    SysState × List Effect × Except HErr (List (String × Json)) :=
  if contentTypeOk req.fileContentType = false then
    (st, [], Except.error ⟨400, "Only audio files are allowed"⟩)
  else
    let name := uniqueName token req.fileFilename
    if st.writeFail = true then
      (st, [Effect.readFile], Except.error ⟨500, "Failed to save file"⟩)
    else
      let contents := req.fileContent
      let st1 : SysState := { st with blobs := writeBlob st.blobs name contents }
      if insertFails st.store = true then
        let st2 : SysState :=
          if st.removeFail = true then st1
          else { st1 with blobs := removeBlob st1.blobs name }
        (st2, [Effect.readFile, Effect.writeBlob name, Effect.removeBlob name],
          Except.error ⟨500, "Database error"⟩)
      else
        let t : Track := mkTrack req token
        let pr := create_document st.store t
        let st3 : SysState := { st1 with store := pr.1 }
        (st3, [Effect.readFile, Effect.writeBlob name, Effect.insertDoc],
          Except.ok (uploadResponse pr.2 t (build_media_url st.publicBase name) now))

/-- Descending insertion by creation stamp. -/
def insertDesc (d : Doc) : List Doc → List Doc
  | [] => [d]
  | x :: xs => if x.created_at ≤ d.created_at then d :: x :: xs else x :: insertDesc d xs

/-- Sort documents by creation stamp, newest first (model of the Mongo
sort on created_at descending). -/
def sortDesc : List Doc → List Doc
  | [] => []
  | x :: xs => insertDesc x (sortDesc xs)

/-- Projection of a stored document to a response item: the document
fields with the identifier stringified in place and media_url appended,
lines 157-160 of src/main.py. -/
def docItem (base : Option String) (d : Doc) : List (String × Json) :=
  [("_id", Json.str d.id), ("title", Json.str d.title),
   ("artist", optJson d.artist), ("album", optJson d.album),
   ("genre", optJson d.genre), ("cover_url", optJson d.cover_url),
   ("filename", Json.str d.filename),
   ("original_filename", Json.str d.original_filename),
   ("content_type", Json.str d.content_type),
   ("file_size", Json.num d.file_size),
   ("created_at", Json.num d.created_at),
   ("media_url", Json.str (build_media_url base d.filename))]

/-- list_tracks of src/main.py: 500 when the db handle is None, else the
collection sorted newest first; a truthy limit (nonzero) caps the count,
a falsy one (None, and also zero) does not. -/
def list_tracks (st : SysState) (limit : Option Nat) :
    Except HErr (List (List (String × Json))) :=
  if st.store.available = false then Except.error ⟨500, "Database not available"⟩
  else
    let sorted := sortDesc st.store.docs
    let limited :=
      match limit with
      | some l => if l = 0 then sorted else sorted.take l
      | none => sorted
    Except.ok (limited.map (docItem st.publicBase))

/-- get_track of src/main.py: 500 when the db handle is None, 400 when
the id does not parse as an ObjectId, 404 when no document carries it,
else the document projected to a response item. -/
def get_track (st : SysState) (track_id : String) : Except HErr (List (String × Json)) :=
  if st.store.available = false then Except.error ⟨500, "Database not available"⟩
  else if isValidOid track_id = false then Except.error ⟨400, "Invalid track id"⟩
  else
    match st.store.docs.find? (fun d => d.id == normalizeOid track_id) with
    | none => Except.error ⟨404, "Track not found"⟩
    | some d => Except.ok (docItem st.publicBase d)

/-- Content type attached to a streamed blob, lines 189-193 of
src/main.py: recovered from the metadata store when the db handle is not
None and a record with that filename has a truthy content_type, absent
(generic) otherwise. -/
def mediaContentType (st : SysState) (filename : String) : Option String :=
  if st.store.available = true then
    match st.store.docs.find? (fun d => d.filename == filename) with
    | some r => if r.content_type = "" then none else some r.content_type
    | none => none
  else none

/-- serve_media of src/main.py: 404 when the blob is absent, else the
raw bytes together with the best-effort content type. -/
def serve_media (st : SysState) (filename : String) :
    Except HErr (List Nat × Option String) :=
  match lookupBlob st.blobs filename with
  | none => Except.error ⟨404, "File not found"⟩
  | some bytes => Except.ok (bytes, mediaContentType st filename)

/-- Number of dot characters in a list (used to rule out
parent-directory segments in generated storage names). -/
def dotCount : List Char → Nat
  | [] => 0
  | c :: rest => (if c = '.' then 1 else 0) + dotCount rest

/-- Sample uuid4 hex tokens (32 hex digits each). -/
def tokA : String := "11111111111111111111111111111111"

/-- Second sample token. -/
def tokB : String := "22222222222222222222222222222222"

/-- Third sample token. -/
def tokC : String := "33333333333333333333333333333333"

/-- Initial state: empty upload directory, empty and healthy store, no
public base URL, no injected faults. -/
def st0 : SysState :=
  { blobs := [],
    store := { available := true, failInsert := false, docs := [], nextId := 0, nextTime := 0 },
    publicBase := none, writeFail := false, removeFail := false }

/-- Sample upload request A. -/
def reqA : UploadReq :=
  { fileContent := [1, 2], fileFilename := "a.mp3", fileContentType := some "audio/mpeg",
    title := "A", artist := none, album := none, genre := none, cover_url := none }

/-- Sample upload request B. -/
def reqB : UploadReq :=
  { fileContent := [3, 4], fileFilename := "b.mp3", fileContentType := some "audio/mpeg",
    title := "B", artist := none, album := none, genre := none, cover_url := none }

/-- Sample upload request C. -/
def reqC : UploadReq :=
  { fileContent := [5, 6], fileFilename := "c.mp3", fileContentType := some "audio/mpeg",
    title := "C", artist := none, album := none, genre := none, cover_url := none }

/-- Sample request with a non-audio content type. -/
def reqBad : UploadReq :=
  { fileContent := [1, 2], fileFilename := "a.txt", fileContentType := some "text/plain",
    title := "A", artist := none, album := none, genre := none, cover_url := none }

/-- State after uploading A. -/
def stA : SysState := (upload_track st0 reqA tokA "tA").1

/-- State after uploading A then B. -/
def stB : SysState := (upload_track stA reqB tokB "tB").1

/-- State after uploading A then B then C. -/
def stABC : SysState := (upload_track stB reqC tokC "tC").1

/-- State holding blob A but with the metadata store unavailable. -/
def stDown : SysState := { stA with store := { stA.store with available := false } }

/-- Healthy empty state with insert failure injected. -/
def stFail : SysState :=
  { blobs := [],
    store := { available := true, failInsert := true, docs := [], nextId := 0, nextTime := 0 },
    publicBase := none, writeFail := false, removeFail := false }

/-- Storage name of blob A. -/
def nameA : String := tokA ++ ".mp3"

/-- Document stored for upload B. -/
def wDocB : Doc :=
  { id := natToHex24 1, title := "B", artist := none, album := none, genre := none,
    cover_url := none, filename := tokB ++ ".mp3", original_filename := "b.mp3",
    content_type := "audio/mpeg", file_size := 2, created_at := 1 }

/-- Document stored for upload C. -/
def wDocC : Doc :=
  { id := natToHex24 2, title := "C", artist := none, album := none, genre := none,
    cover_url := none, filename := tokC ++ ".mp3", original_filename := "c.mp3",
    content_type := "audio/mpeg", file_size := 2, created_at := 2 }

theorem lookupBlob_writeBlob (bs : List (String × List Nat)) (n : String) (c : List Nat) :
    lookupBlob (writeBlob bs n c) n = some c := by
  induction bs with
  | nil => simp [writeBlob, lookupBlob]
  | cons hd tl ih =>
    obtain ⟨m, d⟩ := hd
    by_cases h : m = n
    · simp [writeBlob, h, lookupBlob]
    · simp [writeBlob, h, lookupBlob, ih]

theorem writeBlob_fresh (bs : List (String × List Nat)) (n : String) (c : List Nat)
    (h : lookupBlob bs n = none) : writeBlob bs n c = bs ++ [(n, c)] := by
  induction bs with
  | nil => rfl
  | cons hd tl ih =>
    obtain ⟨m, d⟩ := hd
    by_cases hm : m = n
    · simp [lookupBlob, hm] at h
    · simp [lookupBlob, hm] at h
      simp [writeBlob, hm, ih h]

theorem filter_ne_of_lookup_none (bs : List (String × List Nat)) (n : String)
    (h : lookupBlob bs n = none) : bs.filter (fun p => p.1 != n) = bs := by
  induction bs with
  | nil => rfl
  | cons hd tl ih =>
    obtain ⟨m, d⟩ := hd
    by_cases hm : m = n
    · simp [lookupBlob, hm] at h
    · simp [lookupBlob, hm] at h
      simp [List.filter_cons, hm, ih h]

theorem removeBlob_writeBlob_fresh (bs : List (String × List Nat)) (n : String) (c : List Nat)
    (h : lookupBlob bs n = none) : removeBlob (writeBlob bs n c) n = bs := by
  rw [writeBlob_fresh bs n c h]
  unfold removeBlob
  rw [List.filter_append, filter_ne_of_lookup_none bs n h]
  simp

theorem afterLastSlash_no_slash (p : List Char) : '/' ∉ afterLastSlash p := by
  induction p with
  | nil => simp [afterLastSlash]
  | cons c rest ih =>
    by_cases h : '/' ∈ rest
    · simpa [afterLastSlash, h] using ih
    · by_cases hc : c = '/'
      · simp [afterLastSlash, h, hc]
      · intro hm
        rw [afterLastSlash, if_neg h, if_neg hc] at hm
        rcases List.mem_cons.mp hm with h1 | h1
        · exact hc h1.symm
        · exact h h1

theorem afterLastSlash_of_no_slash (p : List Char) (h : '/' ∉ p) : afterLastSlash p = p := by
  induction p with
  | nil => rfl
  | cons c rest ih =>
    have h1 : '/' ∉ rest := fun hm => h (List.mem_cons_of_mem _ hm)
    have h2 : ¬ c = '/' := fun hc => h (by simp [hc])
    simp [afterLastSlash, h1, h2]

theorem fromLastDot_eq_nil (l : List Char) (h : '.' ∉ l) : fromLastDot l = [] := by
  induction l with
  | nil => rfl
  | cons c rest ih =>
    have h1 : '.' ∉ rest := fun hm => h (List.mem_cons_of_mem _ hm)
    have h2 : ¬ c = '.' := fun hc => h (by simp [hc])
    simp [fromLastDot, h1, h2]

theorem mem_of_mem_fromLastDot (l : List Char) (x : Char) (h : x ∈ fromLastDot l) : x ∈ l := by
  induction l with
  | nil => simp [fromLastDot] at h
  | cons c rest ih =>
    by_cases h1 : '.' ∈ rest
    · rw [fromLastDot, if_pos h1] at h
      exact List.mem_cons_of_mem _ (ih h)
    · by_cases h2 : c = '.'
      · rw [fromLastDot, if_neg h1, if_pos h2] at h
        exact h
      · rw [fromLastDot, if_neg h1, if_neg h2] at h
        cases h

theorem fromLastDot_shape (l : List Char) (h : '.' ∈ l) :
    ∃ rest, fromLastDot l = '.' :: rest ∧ '.' ∉ rest := by
  induction l with
  | nil => cases h
  | cons c r ih =>
    by_cases h1 : '.' ∈ r
    · obtain ⟨rest, he, hn⟩ := ih h1
      exact ⟨rest, by rw [fromLastDot, if_pos h1, he], hn⟩
    · have hc : c = '.' := by
        rcases List.mem_cons.mp h with h2 | h2
        · exact h2.symm
        · exact absurd h2 h1
      exact ⟨r, by rw [fromLastDot, if_neg h1, if_pos hc, hc], h1⟩

theorem extOfBasename_shape (b : List Char) :
    extOfBasename b = [] ∨ ∃ rest, extOfBasename b = '.' :: rest ∧ '.' ∉ rest := by
  unfold extOfBasename
  by_cases hg : '.' ∈ b.dropWhile (fun c => c == '.')
  · rw [if_pos hg]
    right
    exact fromLastDot_shape b ((List.dropWhile_sublist _).mem hg)
  · rw [if_neg hg]
    left
    rfl

theorem extOfBasename_no_slash (b : List Char) (hb : '/' ∉ b) : '/' ∉ extOfBasename b := by
  unfold extOfBasename
  by_cases hg : '.' ∈ b.dropWhile (fun c => c == '.')
  · rw [if_pos hg]
    exact fun hm => hb (mem_of_mem_fromLastDot b '/' hm)
  · rw [if_neg hg]
    simp

theorem dotCount_append (l1 l2 : List Char) :
    dotCount (l1 ++ l2) = dotCount l1 + dotCount l2 := by
  induction l1 with
  | nil => simp [dotCount]
  | cons c rest ih => simp [dotCount, ih, Nat.add_assoc]

theorem dotCount_eq_zero (l : List Char) (h : '.' ∉ l) : dotCount l = 0 := by
  induction l with
  | nil => rfl
  | cons c rest ih =>
    have h1 : ¬ c = '.' := fun hc => h (by simp [hc])
    have h2 : '.' ∉ rest := fun hm => h (List.mem_cons_of_mem _ hm)
    simp [dotCount, h1, ih h2]

theorem extOfBasename_dotCount (b : List Char) : dotCount (extOfBasename b) ≤ 1 := by
  rcases extOfBasename_shape b with h | ⟨rest, he, hn⟩
  · rw [h]
    simp [dotCount]
  · rw [he]
    simp [dotCount, dotCount_eq_zero rest hn]

theorem uniqueName_data (token orig : String) :
    (uniqueName token orig).data = token.data ++ extOfBasename (afterLastSlash orig.data) := by
  unfold uniqueName splitextExt
  rw [String.data_append]

theorem insertDesc_all_lt (d : Doc) (l : List Doc)
    (h : ∀ x ∈ l, d.created_at < x.created_at) : insertDesc d l = l ++ [d] := by
  induction l with
  | nil => rfl
  | cons x xs ih =>
    have hx := h x (List.mem_cons_self x xs)
    have hle : ¬ x.created_at ≤ d.created_at := by omega
    simp only [insertDesc, if_neg hle, List.cons_append, List.cons.injEq, true_and]
    exact ih (fun y hy => h y (List.mem_cons_of_mem x hy))

theorem sortDesc_of_increasing (l : List Doc)
    (h : List.Pairwise (fun a b => a.created_at < b.created_at) l) :
    sortDesc l = l.reverse := by
  induction l with
  | nil => rfl
  | cons d rest ih =>
    rw [List.pairwise_cons] at h
    obtain ⟨hall, hrest⟩ := h
    show insertDesc d (sortDesc rest) = (d :: rest).reverse
    rw [ih hrest, insertDesc_all_lt d rest.reverse (fun x hx => hall x (List.mem_reverse.mp hx)),
      List.reverse_cons]

theorem get_track_blobs_irrelevant (st : SysState) (b : List (String × List Nat)) (id : String) :
    get_track { st with blobs := b } id = get_track st id := rfl

theorem list_tracks_blobs_irrelevant (st : SysState) (b : List (String × List Nat))
    (lim : Option Nat) :
    list_tracks { st with blobs := b } lim = list_tracks st lim := rfl

theorem upload_track_insert_fail (st : SysState) (req : UploadReq) (token now : String)
    (hct : contentTypeOk req.fileContentType = true) (hw : st.writeFail = false)
    (hfail : insertFails st.store = true) :
    upload_track st req token now =
      ((if st.removeFail = true
          then { st with blobs := writeBlob st.blobs (uniqueName token req.fileFilename) req.fileContent }
          else { st with blobs := removeBlob (writeBlob st.blobs (uniqueName token req.fileFilename) req.fileContent) (uniqueName token req.fileFilename) }),
        [Effect.readFile, Effect.writeBlob (uniqueName token req.fileFilename),
          Effect.removeBlob (uniqueName token req.fileFilename)],
        Except.error ⟨500, "Database error"⟩) := by
  simp only [upload_track, hct, hw, hfail]
  simp

theorem upload_track_success (st : SysState) (req : UploadReq) (token now : String)
    (hct : contentTypeOk req.fileContentType = true) (hw : st.writeFail = false)
    (hok : insertFails st.store = false) :
    upload_track st req token now =
      ({ st with blobs := writeBlob st.blobs (uniqueName token req.fileFilename) req.fileContent, store := (create_document st.store (mkTrack req token)).1 },
        [Effect.readFile, Effect.writeBlob (uniqueName token req.fileFilename), Effect.insertDoc],
        Except.ok (uploadResponse (create_document st.store (mkTrack req token)).2
          (mkTrack req token)
          (build_media_url st.publicBase (uniqueName token req.fileFilename)) now)) := by
  simp only [upload_track, hct, hw, hok]
  simp

/-- C6: an upload whose declared content type is absent or does not start
with audio/ fails with status 400 and performs no side effect at all:
the state is returned unchanged and the effect trace is empty, so no
file bytes are read, no blob is written and no Track record is
created. -/
theorem upload_invalid_content_type_rejected (st : SysState) (req : UploadReq)
    (token now : String) (h : contentTypeOk req.fileContentType = false) :
    upload_track st req token now =
      (st, [], Except.error ⟨400, "Only audio files are allowed"⟩) := by
  unfold upload_track
  rw [if_pos h]

/-- Witness for C6 at a concrete text/plain upload. -/
theorem upload_invalid_content_type_rejected_witness :
    contentTypeOk reqBad.fileContentType = false ∧
    upload_track st0 reqBad tokA "now" =
      (st0, [], Except.error ⟨400, "Only audio files are allowed"⟩) :=
  ⟨rfl, upload_invalid_content_type_rejected st0 reqBad tokA "now" rfl⟩

/-- C9: build_media_url returns base ++ "/media/" ++ filename when a
public base is configured and exactly "/media/" ++ filename when none
is; it is a pure function of its two arguments, so equal inputs give
equal output by definition.  The source treats an empty configured base
like an absent one, but then both formulas coincide. -/
theorem build_media_url_formula (b f : String) :
    build_media_url (some b) f = b ++ "/media/" ++ f ∧
    build_media_url none f = "/media/" ++ f := by
  constructor
  · by_cases hb : b = ""
    · subst hb
      rfl
    · simp [build_media_url, hb]
  · rfl

/-- C7: with the store reachable, get_track rejects a malformed id with
status 400 and a well-formed id carried by no stored document with
status 404, and the two error responses are distinct. -/
theorem get_track_error_cases (st : SysState) (track_id : String)
    (hav : st.store.available = true) :
    (isValidOid track_id = false →
      get_track st track_id = Except.error ⟨400, "Invalid track id"⟩) ∧
    (isValidOid track_id = true →
      st.store.docs.find? (fun d => d.id == normalizeOid track_id) = none →
      get_track st track_id = Except.error ⟨404, "Track not found"⟩) ∧
    (HErr.mk 400 "Invalid track id" ≠ HErr.mk 404 "Track not found") := by
  refine ⟨?_, ?_, by decide⟩
  · intro hv
    simp [get_track, hav, hv]
  · intro hv hf
    simp [get_track, hav, hv, hf]

/-- Witness for C7: a malformed id and an absent well-formed id against
the one-track state. -/
theorem get_track_error_cases_witness :
    stA.store.available = true ∧
    (isValidOid "zz" = false ∧
      get_track stA "zz" = Except.error ⟨400, "Invalid track id"⟩) ∧
    (isValidOid "ffffffffffffffffffffffff" = true ∧
      stA.store.docs.find? (fun d => d.id == normalizeOid "ffffffffffffffffffffffff") = none ∧
      get_track stA "ffffffffffffffffffffffff" = Except.error ⟨404, "Track not found"⟩) :=
  ⟨rfl,
   ⟨rfl, (get_track_error_cases stA "zz" rfl).1 rfl⟩,
   ⟨rfl, rfl, (get_track_error_cases stA "ffffffffffffffffffffffff" rfl).2.1 rfl rfl⟩⟩

/-- C10: when the blob exists, serve_media succeeds and streams exactly
the stored bytes; an unavailable metadata store, or the absence of a
record for the filename, only downgrades the content type to the
generic one and never causes an error. -/
theorem serve_media_independent_of_store (st : SysState) (fn : String) (bytes : List Nat)
    (hb : lookupBlob st.blobs fn = some bytes) :
    (∃ ct, serve_media st fn = Except.ok (bytes, ct)) ∧
    (st.store.available = false → serve_media st fn = Except.ok (bytes, none)) ∧
    (st.store.docs.find? (fun d => d.filename == fn) = none →
      serve_media st fn = Except.ok (bytes, none)) := by
  refine ⟨⟨mediaContentType st fn, ?_⟩, ?_, ?_⟩
  · simp [serve_media, hb]
  · intro h
    simp [serve_media, hb, mediaContentType, h]
  · intro h
    cases hav : st.store.available
    · simp [serve_media, hb, mediaContentType, hav]
    · simp [serve_media, hb, mediaContentType, hav, h]

/-- Witness for C10 at the stored blob of upload A with the store made
unavailable: streaming still succeeds with a generic content type. -/
theorem serve_media_independent_of_store_witness :
    lookupBlob stDown.blobs nameA = some [1, 2] ∧
    (∃ ct, serve_media stDown nameA = Except.ok ([1, 2], ct)) ∧
    serve_media stDown nameA = Except.ok ([1, 2], none) :=
  ⟨rfl, (serve_media_independent_of_store stDown nameA [1, 2] rfl).1,
   (serve_media_independent_of_store stDown nameA [1, 2] rfl).2.1 rfl⟩

/-- C1: when the blob write succeeds but the metadata insert fails, the
upload returns the 500 persistence error, leaves the metadata store
untouched, attempts the best-effort delete of the just-written blob
(whether or not that delete itself fails), restores the exact pre-call
state when the delete succeeds and the storage name was fresh, and
leaves every read endpoint answering exactly as before the call. -/
theorem upload_rollback_on_insert_failure (st : SysState) (req : UploadReq) (token now : String)
    (hct : contentTypeOk req.fileContentType = true)
    (hw : st.writeFail = false)
    (hfail : insertFails st.store = true) :
    (upload_track st req token now).2.2 = Except.error ⟨500, "Database error"⟩ ∧
    (upload_track st req token now).1.store = st.store ∧
    Effect.removeBlob (uniqueName token req.fileFilename) ∈ (upload_track st req token now).2.1 ∧
    (st.removeFail = false → lookupBlob st.blobs (uniqueName token req.fileFilename) = none →
      (upload_track st req token now).1 = st) ∧
    (∀ id, get_track (upload_track st req token now).1 id = get_track st id) ∧
    (∀ lim, list_tracks (upload_track st req token now).1 lim = list_tracks st lim) := by
  rw [upload_track_insert_fail st req token now hct hw hfail]
  refine ⟨rfl, ?_, by simp, ?_, ?_, ?_⟩
  · by_cases hrf : st.removeFail = true
    · rw [if_pos hrf]
    · rw [if_neg hrf]
  · intro h1 h2
    rw [if_neg (by simp [h1])]
    rw [removeBlob_writeBlob_fresh st.blobs _ _ h2]
  · intro id
    by_cases hrf : st.removeFail = true
    · rw [if_pos hrf]
      exact get_track_blobs_irrelevant st _ id
    · rw [if_neg hrf]
      exact get_track_blobs_irrelevant st _ id
  · intro lim
    by_cases hrf : st.removeFail = true
    · rw [if_pos hrf]
      exact list_tracks_blobs_irrelevant st _ lim
    · rw [if_neg hrf]
      exact list_tracks_blobs_irrelevant st _ lim

/-- Witness for C1: a valid audio upload against the empty state with
insert failure injected. -/
theorem upload_rollback_on_insert_failure_witness :
    contentTypeOk reqA.fileContentType = true ∧
    stFail.writeFail = false ∧
    insertFails stFail.store = true ∧
    ((upload_track stFail reqA tokA "now").2.2 = Except.error ⟨500, "Database error"⟩ ∧
     (upload_track stFail reqA tokA "now").1.store = stFail.store ∧
     Effect.removeBlob (uniqueName tokA reqA.fileFilename) ∈ (upload_track stFail reqA tokA "now").2.1 ∧
     (stFail.removeFail = false →
       lookupBlob stFail.blobs (uniqueName tokA reqA.fileFilename) = none →
       (upload_track stFail reqA tokA "now").1 = stFail) ∧
     (∀ id, get_track (upload_track stFail reqA tokA "now").1 id = get_track stFail id) ∧
     (∀ lim, list_tracks (upload_track stFail reqA tokA "now").1 lim = list_tracks stFail lim)) :=
  ⟨rfl, rfl, rfl, upload_rollback_on_insert_failure stFail reqA tokA "now" rfl rfl rfl⟩

/-- C2 (amended): with the store reachable, stored documents carrying
strictly increasing creation stamps, and a positive limit, list_tracks
returns the stored tracks newest first (the reverse of insertion order)
cut to at most limit items, and the returned length is at most limit. -/
theorem list_tracks_newest_first (st : SysState) (limit : Nat)
    (hav : st.store.available = true)
    (hord : List.Pairwise (fun a b => a.created_at < b.created_at) st.store.docs)
    (hpos : 0 < limit) :
    list_tracks st (some limit) =
      Except.ok ((st.store.docs.reverse.map (docItem st.publicBase)).take limit) ∧
    ((st.store.docs.reverse.map (docItem st.publicBase)).take limit).length ≤ limit := by
  constructor
  · have hz : ¬ limit = 0 := by omega
    simp [list_tracks, hav, hz, sortDesc_of_increasing _ hord, List.map_take]
  · rw [List.length_take]
    exact inf_le_left

/-- Counterexample for C2 as stated: with one stored track, the literal
reading that a supplied limit of 0 yields at most 0 items fails, because
the source treats a zero limit as falsy and applies no limit at all. -/
theorem list_tracks_limit_zero_returns_all :
    ∃ items, list_tracks stA (some 0) = Except.ok items ∧ ¬ items.length ≤ 0 := by
  refine ⟨_, rfl, ?_⟩
  decide

/-- Witness for C2 after uploading A then B then C: limit 2 returns
exactly the items of C and B, newest first. -/
theorem list_tracks_newest_first_witness :
    stABC.store.available = true ∧
    List.Pairwise (fun a b => a.created_at < b.created_at) stABC.store.docs ∧
    0 < 2 ∧
    (list_tracks stABC (some 2) =
        Except.ok ((stABC.store.docs.reverse.map (docItem stABC.publicBase)).take 2) ∧
      ((stABC.store.docs.reverse.map (docItem stABC.publicBase)).take 2).length ≤ 2) ∧
    list_tracks stABC (some 2) = Except.ok [docItem none wDocC, docItem none wDocB] :=
  ⟨rfl, by decide, by decide,
   list_tracks_newest_first stABC 2 rfl (by decide) (by decide), rfl⟩

/-- C3 (amended): a successful upload returns a JSON object whose keys
are exactly _id (not id), all the Track fields, media_url and
created_at, in the order the source builds them. -/
theorem upload_response_fields (st : SysState) (req : UploadReq) (token now : String)
    (hct : contentTypeOk req.fileContentType = true) (hw : st.writeFail = false)
    (hok : insertFails st.store = false) :
    ∃ resp, (upload_track st req token now).2.2 = Except.ok resp ∧
      resp.map Prod.fst = ["_id", "title", "artist", "album", "genre", "cover_url",
        "filename", "original_filename", "content_type", "file_size", "media_url",
        "created_at"] := by
  rw [upload_track_success st req token now hct hw hok]
  exact ⟨_, rfl, rfl⟩

/-- Counterexample for C3 as stated: the success response of a concrete
upload has no key named id; the identifier is returned under _id. -/
theorem upload_response_lacks_id_key :
    ∃ resp, (upload_track st0 reqA tokA "now").2.2 = Except.ok resp ∧
      "id" ∉ resp.map Prod.fst := by
  refine ⟨_, rfl, ?_⟩
  decide

/-- Witness for C3 at a concrete successful upload. -/
theorem upload_response_fields_witness :
    contentTypeOk reqA.fileContentType = true ∧
    st0.writeFail = false ∧
    insertFails st0.store = false ∧
    (∃ resp, (upload_track st0 reqA tokA "now").2.2 = Except.ok resp ∧
      resp.map Prod.fst = ["_id", "title", "artist", "album", "genre", "cover_url",
        "filename", "original_filename", "content_type", "file_size", "media_url",
        "created_at"]) :=
  ⟨rfl, rfl, rfl, upload_response_fields st0 reqA tokA "now" rfl rfl rfl⟩

/-- C8: on a successful upload the stored document and the JSON response
report file_size equal to the byte length of the uploaded content, and
the bytes stored under the generated name are exactly that content. -/
theorem upload_file_size_exact (st : SysState) (req : UploadReq) (token now : String)
    (hct : contentTypeOk req.fileContentType = true) (hw : st.writeFail = false)
    (hok : insertFails st.store = false) :
    ∃ d resp,
      (upload_track st req token now).1.store.docs = st.store.docs ++ [d] ∧
      (upload_track st req token now).2.2 = Except.ok resp ∧
      lookupBlob (upload_track st req token now).1.blobs (uniqueName token req.fileFilename) =
        some req.fileContent ∧
      d.file_size = req.fileContent.length ∧
      getField resp "file_size" = some (Json.num req.fileContent.length) := by
  rw [upload_track_success st req token now hct hw hok]
  refine ⟨_, _, rfl, rfl, ?_, rfl, rfl⟩
  exact lookupBlob_writeBlob st.blobs _ req.fileContent

/-- Witness for C8 at a concrete successful upload of two bytes. -/
theorem upload_file_size_exact_witness :
    contentTypeOk reqA.fileContentType = true ∧
    st0.writeFail = false ∧
    insertFails st0.store = false ∧
    (∃ d resp,
      (upload_track st0 reqA tokA "now").1.store.docs = st0.store.docs ++ [d] ∧
      (upload_track st0 reqA tokA "now").2.2 = Except.ok resp ∧
      lookupBlob (upload_track st0 reqA tokA "now").1.blobs (uniqueName tokA reqA.fileFilename) =
        some reqA.fileContent ∧
      d.file_size = reqA.fileContent.length ∧
      getField resp "file_size" = some (Json.num reqA.fileContent.length)) :=
  ⟨rfl, rfl, rfl, upload_file_size_exact st0 reqA tokA "now" rfl rfl rfl⟩

theorem extOfBasename_of_head_ne_dot (l : List Char) (hl : l.head? ≠ some '.') :
    extOfBasename l = fromLastDot l := by
  cases l with
  | nil => rfl
  | cons c rest =>
    have hc : (c == '.') = false := by
      cases hcc : c == '.'
      · rfl
      · rw [beq_iff_eq] at hcc
        exact absurd (by simp [hcc]) hl
    have hdw : (c :: rest).dropWhile (fun x => x == '.') = c :: rest := by
      rw [List.dropWhile_cons, hc]
      simp
    unfold extOfBasename
    rw [hdw]
    by_cases hd : '.' ∈ c :: rest
    · rw [if_pos hd]
    · rw [if_neg hd, fromLastDot_eq_nil _ hd]

/-- C4 (amended): the generated storage name is the random token
concatenated with the splitext extension of the original filename; for
filenames containing no path separator and not beginning with a dot
that extension coincides with the spec rule, the substring from the
last dot onward (empty when there is no dot).  A dotfile such as
.bashrc falsifies the unconditional spec rule. -/
theorem uniqueName_matches_spec_rule (token orig : String)
    (h1 : '/' ∉ orig.data) (h2 : orig.data.head? ≠ some '.') :
    uniqueName token orig = token ++ specExt orig := by
  unfold uniqueName splitextExt specExt
  rw [afterLastSlash_of_no_slash orig.data h1, extOfBasename_of_head_ne_dot orig.data h2]

/-- Counterexample for C4 as stated: os.path.splitext treats the leading
dot of a dotfile as part of the root, so the storage name generated for
.bashrc is the bare token, not the token followed by .bashrc as the
last-dot rule of the claim would require. -/
theorem uniqueName_dotfile_no_extension :
    uniqueName tokA ".bashrc" ≠ tokA ++ specExt ".bashrc" := by decide

/-- Witness for C4 at a separator-free filename with a proper
extension. -/
theorem uniqueName_matches_spec_rule_witness :
    '/' ∉ "song.mp3".data ∧ "song.mp3".data.head? ≠ some '.' ∧
    uniqueName tokA "song.mp3" = tokA ++ specExt "song.mp3" :=
  ⟨by decide, by decide, uniqueName_matches_spec_rule tokA "song.mp3" (by decide) (by decide)⟩

/-- C5 (amended): a storage name generated from a hex token contains no
path-separator character and no two consecutive dots (hence no
parent-directory segment), and it differs from the original filename
whenever the token is not a prefix of that filename.  The unconditional
distinctness of the original claim fails when the original filename is
the token followed by its own extension. -/
theorem uniqueName_safe (token orig : String)
    (htok : ∀ c ∈ token.data, isHexChar c = true) :
    (∀ c ∈ (uniqueName token orig).data, c ≠ '/') ∧
    (∀ l r : List Char, (uniqueName token orig).data ≠ l ++ '.' :: '.' :: r) ∧
    ((¬ ∃ suf : List Char, orig.data = token.data ++ suf) → uniqueName token orig ≠ orig) := by
  have hdata := uniqueName_data token orig
  refine ⟨?_, ?_, ?_⟩
  · intro c hc
    rw [hdata] at hc
    rcases List.mem_append.mp hc with hm | hm
    · intro he
      subst he
      exact absurd (htok _ hm) (by decide)
    · intro he
      subst he
      exact absurd hm (extOfBasename_no_slash _ (afterLastSlash_no_slash orig.data))
  · intro l r heq
    have hc1 : dotCount (uniqueName token orig).data ≤ 1 := by
      rw [hdata, dotCount_append]
      have htz : dotCount token.data = 0 :=
        dotCount_eq_zero _ (fun hm => absurd (htok _ hm) (by decide))
      have hext := extOfBasename_dotCount (afterLastSlash orig.data)
      omega
    rw [heq, dotCount_append] at hc1
    simp [dotCount] at hc1
    omega
  · intro hne heq
    exact hne ⟨(splitextExt orig).data,
      (congrArg String.data heq).symm.trans (String.data_append token (splitextExt orig))⟩

/-- Counterexample for C5 as stated: when the original filename is the
token followed by its own extension, the generated storage name equals
the original filename. -/
theorem uniqueName_collision_with_original :
    uniqueName tokA (tokA ++ ".a") = tokA ++ ".a" := by decide

/-- Witness for C5 at a hex token and an ordinary filename. -/
theorem uniqueName_safe_witness :
    (∀ c ∈ tokA.data, isHexChar c = true) ∧
    ((∀ c ∈ (uniqueName tokA "song.mp3").data, c ≠ '/') ∧
     (∀ l r : List Char, (uniqueName tokA "song.mp3").data ≠ l ++ '.' :: '.' :: r) ∧
     ((¬ ∃ suf : List Char, "song.mp3".data = tokA.data ++ suf) →
       uniqueName tokA "song.mp3" ≠ "song.mp3")) :=
  ⟨by decide, uniqueName_safe tokA "song.mp3" (by decide)⟩
